import Mathlib

/-!
Verification development for the detection-driven adaptive reframing pipeline.

The definitions below are shallow embeddings of the Python source:

* `truncQ` models Python's `int()` conversion (truncation toward zero) on an
  exact rational value.
* `cropSize`, `cropRaw`, `clampCrop` and `calculate_crop_coordinates` embed
  `calculate_crop_coordinates` from `mickey_test_frame.py` (lines 153-248;
  identical logic in `mickey_v1.py` lines 29-116) with the smoothing buffer
  absent (`smoothing_buffer=None`).  Python float arithmetic is modelled by
  exact rational arithmetic; a Python `ZeroDivisionError` is modelled by an
  `Option` result (`none`), raised exactly where the source divides.
* `SceneSegment`, `SceneDetector`, `SceneDetector.process_frame`,
  `SceneDetector.finalize` and `runFrames` embed the scene segmentation state
  machine of `mickey_test_frame.py` (lines 9-66).
* `absCorner`, `cornerUnion` and `calculate_scene_bbox` embed
  `calculate_scene_bbox` (lines 69-119); the empty-sample case, on which the
  Python `min()` raises, is modelled as `none`.
* `calculate_iou` and `nmsLoop` embed `_calculate_iou` (lines 527-539 of
  `object_detection_utils.py`) and the greedy suppression loop of
  `extract_detections` (lines 422-438), acting on (box, score, class) triples.
* `sigmoid`, `dequant` and `decodeCell` embed the per-cell decoding of
  `extract_detections` (lines 320-366) together with the class-score product
  (lines 373-375) and `ObjectDetectionUtils.sigmoid` (lines 517-524), over the
  reals.  `specDecodeCellStd` and `specDecodeCellScaled` are comparison
  definitions written from the specification's wording.
-/

/-- Python `int()` conversion of an exact rational: truncation toward zero. -/
def truncQ (q : ℚ) : ℤ := if q < 0 then Int.ceil q else Int.floor q

/-- Final clamping step of `calculate_crop_coordinates`
(`mickey_test_frame.py` lines 242-246): integer conversion followed by
clamping into the frame and forcing a non-degenerate rectangle. -/
def clampCrop (fw fh : ℤ) (x1 y1 x2 y2 : ℚ) : ℤ × ℤ × ℤ × ℤ :=
  (max 0 (min (truncQ x1) (fw - 1)),
   max 0 (min (truncQ y1) (fh - 1)),
   max (max 0 (min (truncQ x1) (fw - 1)) + 1) (min (truncQ x2) fw),
   max (max 0 (min (truncQ y1) (fh - 1)) + 1) (min (truncQ y2) fh))

/-- Sizing step of `calculate_crop_coordinates` (lines 176-189): expand the
subject box by 8% per side on each axis, then size the crop to the target
aspect proportions, driving from width or from height. -/
def cropSize (bw bh tw th : ℚ) : ℚ × ℚ :=
  let ew := bw + 2 * (bw * (2 / 25))
  let eh := bh + 2 * (bh * (2 / 25))
  let ar := tw / th
  if ew / eh > ar then (ew, ew / ar) else (eh * ar, eh)

/-- Real-valued crop rectangle of `calculate_crop_coordinates` before the
final integer clamp (lines 176-240).  `none` models the Python
`ZeroDivisionError` raised by `target_width / target_height`,
`expanded_width / expanded_height` or `crop_width / aspect_ratio`. -/
def cropRaw (fw fh : ℤ) (mx my bw bh tw th : ℚ) : Option (ℚ × ℚ × ℚ × ℚ) :=
  let eh := bh + 2 * (bh * (2 / 25))
  let ew := bw + 2 * (bw * (2 / 25))
  if th = 0 then none
  else if eh = 0 then none
  else if ew / eh > tw / th ∧ tw / th = 0 then none
  else
    let cw := (cropSize bw bh tw th).1
    let ch := (cropSize bw bh tw th).2
    if cw ≤ (fw : ℚ) ∧ ch ≤ (fh : ℚ) then
      some (mx - cw / 2, my - ch / 2, mx - cw / 2 + cw, my - ch / 2 + ch)
    else if ¬ cw ≤ (fw : ℚ) ∧ ch ≤ (fh : ℚ) then
      some (0, my - ch / 2, (fw : ℚ), my + ch / 2)
    else if cw ≤ (fw : ℚ) ∧ ¬ ch ≤ (fh : ℚ) then
      some (mx - cw / 2, 0, mx + cw / 2, (fh : ℚ))
    else
      some (if mx < (fw : ℚ) / 2 then 0 else (fw : ℚ) - ((fw : ℚ) / 2) * 2,
            if my < (fh : ℚ) / 2 then 0 else (fh : ℚ) - ((fh : ℚ) / 2) * 2,
            if mx < (fw : ℚ) / 2 then ((fw : ℚ) / 2) * 2 else (fw : ℚ),
            if my < (fh : ℚ) / 2 then ((fh : ℚ) / 2) * 2 else (fh : ℚ))

/-- `calculate_crop_coordinates` (`mickey_test_frame.py` lines 153-248) with
no smoothing buffer: the real-valued case analysis followed by the final
integer clamp. -/
def calculate_crop_coordinates (fw fh : ℤ) (mx my bw bh tw th : ℚ) :
    Option (ℤ × ℤ × ℤ × ℤ) :=
  (cropRaw fw fh mx my bw bh tw th).map
    (fun r => clampCrop fw fh r.1 r.2.1 r.2.2.1 r.2.2.2)

/-- A detection sample: `(x_center, y_center, width, height, confidence)`,
normalized coordinates as read from a bbox file. -/
abbrev BBox5 := ℚ × ℚ × ℚ × ℚ × ℚ

/-- `SceneSegment` dataclass (`mickey_test_frame.py` lines 9-13). -/
structure SceneSegment where
  start_frame : ℤ
  end_frame : ℤ
  bboxes : List (ℚ × ℚ × ℚ × ℚ)
deriving DecidableEq, Repr

/-- `SceneDetector` state (`mickey_test_frame.py` lines 16-28).  The gap
tolerance and the gap counter are frame counts, modelled as naturals. -/
structure SceneDetector where
  max_gap_frames : ℕ
  min_confidence : ℚ
  current_scene : Option SceneSegment
  scenes : List SceneSegment
  gap_count : ℕ
deriving DecidableEq, Repr

/-- Fresh `SceneDetector` as built by `__init__`. -/
def SceneDetector.init (g : ℕ) (conf : ℚ) : SceneDetector :=
  ⟨g, conf, none, [], 0⟩

/-- Absent-detection branch of `process_frame` (lines 53-60): with an open
segment, increment the gap counter and close the segment once the counter
exceeds `max_gap_frames`. -/
def SceneDetector.absentStep (d : SceneDetector) : SceneDetector :=
  match d.current_scene with
  | none => d
  | some cs =>
    if d.gap_count + 1 > d.max_gap_frames then
      { d with scenes := d.scenes ++ [cs], current_scene := none, gap_count := 0 }
    else
      { d with gap_count := d.gap_count + 1 }

/-- `SceneDetector.process_frame` (`mickey_test_frame.py` lines 30-60). -/
def SceneDetector.process_frame (d : SceneDetector) (frame_number : ℤ)
    (bbox_info : Option BBox5) : SceneDetector :=
  match bbox_info with
  | some (x, y, w, h, conf) =>
    if d.min_confidence ≤ conf then
      match d.current_scene with
      | none =>
        { d with current_scene := some ⟨frame_number, frame_number, [(x, y, w, h)]⟩,
                 gap_count := 0 }
      | some cs =>
        { d with current_scene := some ⟨cs.start_frame, frame_number,
                                        cs.bboxes ++ [(x, y, w, h)]⟩,
                 gap_count := 0 }
    else d.absentStep
  | none => d.absentStep

/-- `SceneDetector.finalize` (`mickey_test_frame.py` lines 62-66). -/
def SceneDetector.finalize (d : SceneDetector) : SceneDetector :=
  match d.current_scene with
  | none => d
  | some cs => { d with scenes := d.scenes ++ [cs], current_scene := none }

/-- Drive a `SceneDetector` through a list of `(frame_number, bbox_info)`
pairs, as the first pass of `process_video` does. -/
def runFrames (d : SceneDetector) (inputs : List (ℤ × Option BBox5)) : SceneDetector :=
  inputs.foldl (fun s p => s.process_frame p.1 p.2) d

/-- Conversion of one normalized sample to absolute pixel corners
(`calculate_scene_bbox`, lines 82-92). -/
def absCorner (fw fh : ℚ) (s : ℚ × ℚ × ℚ × ℚ) : ℚ × ℚ × ℚ × ℚ :=
  let ax := s.1 * fw
  let ay := s.2.1 * fh
  let aw := s.2.2.1 * fw
  let ah := s.2.2.2 * fh
  (ax - aw / 2, ay - ah / 2, ax + aw / 2, ay + ah / 2)

/-- Union rectangle of a nonempty list of corner rectangles
(`calculate_scene_bbox`, lines 95-98): `(left, top, right, bottom)`. -/
def cornerUnion (c : ℚ × ℚ × ℚ × ℚ) (cs : List (ℚ × ℚ × ℚ × ℚ)) : ℚ × ℚ × ℚ × ℚ :=
  ((cs.map fun p => p.1).foldl min c.1,
   (cs.map fun p => p.2.1).foldl min c.2.1,
   (cs.map fun p => p.2.2.1).foldl max c.2.2.1,
   (cs.map fun p => p.2.2.2).foldl max c.2.2.2)

/-- `calculate_scene_bbox` (`mickey_test_frame.py` lines 69-119): union of
the absolute sample corners, 8% expansion per side on each axis, and
integer-truncated center and final extents.  The empty-sample case, on which
Python's `min()` over an empty generator raises, is `none`. -/
def calculate_scene_bbox (bboxes : List (ℚ × ℚ × ℚ × ℚ)) (fw fh : ℚ) :
    Option (ℤ × ℤ × ℤ × ℤ) :=
  match bboxes.map (absCorner fw fh) with
  | [] => none
  | c :: cs =>
    let u := cornerUnion c cs
    let width := u.2.2.1 - u.1
    let height := u.2.2.2 - u.2.1
    let ex := width * (2 / 25)
    let ey := height * (2 / 25)
    let left := u.1 - ex
    let right := u.2.2.1 + ex
    let top := u.2.1 - ey
    let bottom := u.2.2.2 + ey
    some (truncQ ((left + right) / 2), truncQ ((top + bottom) / 2),
          truncQ (right - left), truncQ (bottom - top))

/-- A corner-form box `(x1, y1, x2, y2)`. -/
abbrev Box4 := ℚ × ℚ × ℚ × ℚ

/-- A suppression candidate: corner-form box, score, class index. -/
abbrev Det := Box4 × ℚ × ℕ

/-- `_calculate_iou` (`object_detection_utils.py` lines 527-539):
intersection area over union area, with the source's `1e-7` smoothing term in
the denominator. -/
def calculate_iou (b1 b2 : Box4) : ℚ :=
  let x1 := max b1.1 b2.1
  let y1 := max b1.2.1 b2.2.1
  let x2 := min b1.2.2.1 b2.2.2.1
  let y2 := min b1.2.2.2 b2.2.2.2
  let inter := max 0 (x2 - x1) * max 0 (y2 - y1)
  let area1 := (b1.2.2.1 - b1.1) * (b1.2.2.2 - b1.2.1)
  let area2 := (b2.2.2.1 - b2.1) * (b2.2.2.2 - b2.2.1)
  inter / (area1 + area2 - inter + 1 / 10000000)

/-- Greedy suppression loop of `extract_detections`
(`object_detection_utils.py` lines 422-438): keep the head candidate, drop
every later candidate whose IoU with it exceeds the threshold, repeat. -/
def nmsLoop (thres : ℚ) : List Det → List Det
  | [] => []
  | d :: rest =>
    d :: nmsLoop thres (rest.filter fun e => calculate_iou d.1 e.1 ≤ thres)
termination_by l => l.length
decreasing_by
  simpa using Nat.lt_succ_of_le (List.length_filter_le _ _)

/-- Dequantization applied to each raw tensor value at the start of
`extract_detections` (line 325): `(x - 128) / 128`. -/
noncomputable def dequant (v : ℝ) : ℝ := (v - 128) / 128

/-- `ObjectDetectionUtils.sigmoid` (`object_detection_utils.py` lines
517-524): clip the input to `[-88, 88]`, double it, then apply the logistic
function. -/
noncomputable def sigmoid (x : ℝ) : ℝ :=
  1 / (1 + Real.exp (-(max (-88) (min 88 x) * 2)))

/-- Per-cell, per-anchor decoding of `extract_detections` (lines 320-366)
followed by the class-score product (lines 373-375).  Inputs: the seven raw
channel values, the grid cell coordinates, the stride and the anchor sizes.
Output: normalized `(cx, cy, w, h)`, objectness, and the two per-class
scores. -/
noncomputable def decodeCell (tx ty tw th tobj c0 c1 gx gy stride ax ay : ℝ) :
    ℝ × ℝ × ℝ × ℝ × ℝ × ℝ × ℝ :=
  let y0 := (sigmoid (dequant tx) * 2 - 0.5 + gx) * stride
  let y1 := (sigmoid (dequant ty) * 2 - 0.5 + gy) * stride
  let y2 := (sigmoid (dequant tw) * 2) ^ 2 * ax
  let y3 := (sigmoid (dequant th) * 2) ^ 2 * ay
  let y4 := sigmoid (dequant tobj)
  let y5 := sigmoid (dequant c0)
  let y6 := sigmoid (dequant c1)
  (y0 / 640, y1 / 640, y2 / 640, y3 / 640, y4, y4 * y5, y4 * y6)

/-- Modelled from the spec: the standard logistic function
`1 / (1 + exp(-x))`, as named by the specification's decoder formulas. -/
noncomputable def stdLogistic (x : ℝ) : ℝ := 1 / (1 + Real.exp (-x))

/-- Modelled from the spec: the decoder formulas of the specification,
taken literally with the standard logistic function applied to the
dequantized raw value, then normalized by the model input dimension. -/
noncomputable def specDecodeCellStd (tx ty tw th tobj c0 c1 gx gy stride ax ay : ℝ) :
    ℝ × ℝ × ℝ × ℝ × ℝ × ℝ × ℝ :=
  ((stdLogistic ((tx - 128) / 128) * 2 - 0.5 + gx) * stride / 640,
   (stdLogistic ((ty - 128) / 128) * 2 - 0.5 + gy) * stride / 640,
   (stdLogistic ((tw - 128) / 128) * 2) ^ 2 * ax / 640,
   (stdLogistic ((th - 128) / 128) * 2) ^ 2 * ay / 640,
   stdLogistic ((tobj - 128) / 128),
   stdLogistic ((tobj - 128) / 128) * stdLogistic ((c0 - 128) / 128),
   stdLogistic ((tobj - 128) / 128) * stdLogistic ((c1 - 128) / 128))

/-- Modelled from the spec, amended: the same decoder formulas with the
sigmoid the source actually uses, `1 / (1 + exp(-2 * clip(x, -88, 88)))`,
applied to the dequantized raw value. -/
noncomputable def specDecodeCellScaled (tx ty tw th tobj c0 c1 gx gy stride ax ay : ℝ) :
    ℝ × ℝ × ℝ × ℝ × ℝ × ℝ × ℝ :=
  ((1 / (1 + Real.exp (-(2 * max (-88) (min 88 ((tx - 128) / 128))))) * 2 - 1 / 2 + gx)
      * stride / 640,
   (1 / (1 + Real.exp (-(2 * max (-88) (min 88 ((ty - 128) / 128))))) * 2 - 1 / 2 + gy)
      * stride / 640,
   (1 / (1 + Real.exp (-(2 * max (-88) (min 88 ((tw - 128) / 128))))) * 2) ^ 2 * ax / 640,
   (1 / (1 + Real.exp (-(2 * max (-88) (min 88 ((th - 128) / 128))))) * 2) ^ 2 * ay / 640,
   1 / (1 + Real.exp (-(2 * max (-88) (min 88 ((tobj - 128) / 128))))),
   1 / (1 + Real.exp (-(2 * max (-88) (min 88 ((tobj - 128) / 128)))))
     * (1 / (1 + Real.exp (-(2 * max (-88) (min 88 ((c0 - 128) / 128)))))),
   1 / (1 + Real.exp (-(2 * max (-88) (min 88 ((tobj - 128) / 128)))))
     * (1 / (1 + Real.exp (-(2 * max (-88) (min 88 ((c1 - 128) / 128)))))))

/-- Helper: the final clamping step alone forces an in-bounds, non-degenerate
rectangle, whatever real-valued rectangle it is given. -/
theorem clampCrop_bounds (fw fh : ℤ) (h1 : 1 ≤ fw) (h2 : 1 ≤ fh) (a b c d : ℚ) :
    0 ≤ (clampCrop fw fh a b c d).1 ∧
    (clampCrop fw fh a b c d).1 < (clampCrop fw fh a b c d).2.2.1 ∧
    (clampCrop fw fh a b c d).2.2.1 ≤ fw ∧
    0 ≤ (clampCrop fw fh a b c d).2.1 ∧
    (clampCrop fw fh a b c d).2.1 < (clampCrop fw fh a b c d).2.2.2 ∧
    (clampCrop fw fh a b c d).2.2.2 ≤ fh := by
  simp only [clampCrop]
  omega

/-- Helper: whenever none of the three divisions of the crop calculator is a
division by zero, the case analysis produces a rectangle. -/
theorem cropRaw_isSome (fw fh : ℤ) (mx my bw bh tw th : ℚ) (hth : ¬ th = 0)
    (har : ¬ tw / th = 0) (heh : ¬ bh + 2 * (bh * (2 / 25)) = 0) :
    ∃ r, cropRaw fw fh mx my bw bh tw th = some r := by
  simp only [cropRaw]
  split_ifs with g1
  · exact absurd g1.2 har
  all_goals exact ⟨_, rfl⟩

/-- C1 counterexample: with a zero-height subject box (explicitly allowed by
the claim), the crop calculator divides by a zero `expanded_height` and
raises `ZeroDivisionError` instead of returning a rectangle, so the claim's
"never fails" part is false. -/
theorem crop_zero_height_fails :
    calculate_crop_coordinates 1920 1080 100 100 100 0 1920 1080 = none := by
  norm_num [calculate_crop_coordinates, cropRaw]

/-- C1 (amended): for integer frame dimensions at least 1, any subject
center, any subject box width and any nonzero subject box height (nonzero
because a zero height makes the source raise `ZeroDivisionError` on
`expanded_width / expanded_height`), the crop calculator with its default
16:9 target succeeds and returns integers with
`0 <= x1 < x2 <= frame_width` and `0 <= y1 < y2 <= frame_height`. -/
theorem crop_inbounds (fw fh : ℤ) (mx my bw bh : ℚ)
    (h1 : 1 ≤ fw) (h2 : 1 ≤ fh) (hb : bh ≠ 0) :
    ∃ x1 y1 x2 y2,
      calculate_crop_coordinates fw fh mx my bw bh 1920 1080 = some (x1, y1, x2, y2) ∧
      0 ≤ x1 ∧ x1 < x2 ∧ x2 ≤ fw ∧ 0 ≤ y1 ∧ y1 < y2 ∧ y2 ≤ fh := by
  obtain ⟨r, hr⟩ := cropRaw_isSome fw fh mx my bw bh 1920 1080 (by norm_num)
    (by norm_num) (fun h => hb (by linear_combination (25 / 29 : ℚ) * h))
  have hc := clampCrop_bounds fw fh h1 h2 r.1 r.2.1 r.2.2.1 r.2.2.2
  refine ⟨_, _, _, _, ?_, hc.1, hc.2.1, hc.2.2.1, hc.2.2.2.1, hc.2.2.2.2.1,
    hc.2.2.2.2.2⟩
  simp only [calculate_crop_coordinates, hr, Option.map_some']

/-- C1 witness: the amended theorem instantiated at a 1920x1080 frame with a
100x100 subject box centered at (960, 540). -/
theorem crop_inbounds_witness :
    (1 : ℤ) ≤ 1920 ∧ (1 : ℤ) ≤ 1080 ∧ (100 : ℚ) ≠ 0 ∧
    ∃ x1 y1 x2 y2,
      calculate_crop_coordinates 1920 1080 960 540 100 100 1920 1080 =
        some (x1, y1, x2, y2) ∧
      0 ≤ x1 ∧ x1 < x2 ∧ x2 ≤ 1920 ∧ 0 ≤ y1 ∧ y1 < y2 ∧ y2 ≤ 1080 :=
  ⟨by norm_num, by norm_num, by norm_num,
   crop_inbounds 1920 1080 960 540 100 100 (by norm_num) (by norm_num) (by norm_num)⟩

/-- C2: with the subject centered near (50, 50) in a 1920x1080 frame and an
oversized 4000x4000 box (boundary case (d)), the code returns the full frame
rectangle (0, 0, 1920, 1080) on both half-selection branches, because
`quarter_width * 2` equals `frame_width`; it does not return the top-left
quadrant (0, 0, 960, 540) that the half-selection rule of the claim
describes. -/
theorem crop_case_d_full_frame :
    calculate_crop_coordinates 1920 1080 50 50 4000 4000 1920 1080 =
      some (0, 0, 1920, 1080) ∧
    ((0 : ℤ), (0 : ℤ), (1920 : ℤ), (1080 : ℤ)) ≠
      ((0 : ℤ), (0 : ℤ), (960 : ℤ), (540 : ℤ)) := by
  constructor
  · norm_num [calculate_crop_coordinates, cropRaw, cropSize, clampCrop, truncQ,
      min_def, max_def]
  · decide

/-- C3 counterexample: a boundary case (b) input (crop width exceeds the
frame, crop height fits; explicitly covered by the claim).  The code clamps
the width to the full frame while keeping the computed height, so the
returned rectangle is 1000 x 1044 whose shape is not 16:9. -/
theorem crop_case_b_bad_shape :
    calculate_crop_coordinates 1000 1080 500 540 1600 100 1920 1080 =
      some (0, 18, 1000, 1062) ∧
    (cropSize 1600 100 1920 1080).2 ≤ (1080 : ℚ) ∧
    ¬ ((1000 - 0 : ℚ) / (1062 - 18) = 1920 / 1080) := by
  refine ⟨?_, ?_, ?_⟩
  · norm_num [calculate_crop_coordinates, cropRaw, cropSize, clampCrop, truncQ,
      min_def, max_def]
  · norm_num [cropSize]
  · norm_num

/-- C3 (amended): the sizing step always produces real-valued crop
dimensions whose shape matches the target exactly
(`crop_width = crop_height * (target_width / target_height)`), and in
boundary case (a) (both computed dimensions fit inside the frame) the
real-valued rectangle returned before integer truncation retains that exact
shape.  The final integer rectangle only approximates it, and in cases (b)
and (c) the clamped axis abandons the target shape altogether. -/
theorem crop_shape_case_a (fw fh : ℤ) (mx my bw bh tw th a b c d : ℚ)
    (htw : tw ≠ 0) (hth : th ≠ 0)
    (hcw : (cropSize bw bh tw th).1 ≤ (fw : ℚ))
    (hch : (cropSize bw bh tw th).2 ≤ (fh : ℚ))
    (hr : cropRaw fw fh mx my bw bh tw th = some (a, b, c, d)) :
    (cropSize bw bh tw th).1 = (cropSize bw bh tw th).2 * (tw / th) ∧
    c - a = (d - b) * (tw / th) := by
  have har : tw / th ≠ 0 := div_ne_zero htw hth
  have h1 : (cropSize bw bh tw th).1 = (cropSize bw bh tw th).2 * (tw / th) := by
    simp only [cropSize]
    split
    · exact (div_mul_cancel₀ _ har).symm
    · rfl
  refine ⟨h1, ?_⟩
  have hg3 : ¬ ((bw + 2 * (bw * (2 / 25))) / (bh + 2 * (bh * (2 / 25))) > tw / th ∧
      tw / th = 0) := fun h => har h.2
  by_cases hg2 : bh + 2 * (bh * (2 / 25)) = 0
  · simp only [cropRaw, if_neg hth, if_pos hg2] at hr
    exact Option.noConfusion hr
  · simp only [cropRaw, if_neg hth, if_neg hg2, if_neg hg3,
      if_pos (And.intro hcw hch), Option.some.injEq, Prod.mk.injEq] at hr
    obtain ⟨ha, hb, hc, hd⟩ := hr
    subst ha hb hc hd
    calc mx - (cropSize bw bh tw th).1 / 2 + (cropSize bw bh tw th).1 -
          (mx - (cropSize bw bh tw th).1 / 2)
        = (cropSize bw bh tw th).1 := by ring
      _ = (cropSize bw bh tw th).2 * (tw / th) := h1
      _ = (my - (cropSize bw bh tw th).2 / 2 + (cropSize bw bh tw th).2 -
            (my - (cropSize bw bh tw th).2 / 2)) * (tw / th) := by ring

/-- C3 witness: the amended theorem instantiated at a 1920x1080 frame with a
100x100 subject box centered at (960, 540), whose case (a) real-valued
rectangle is (7712/9, 482) - (9568/9, 598). -/
theorem crop_shape_case_a_witness :
    (1920 : ℚ) ≠ 0 ∧ (1080 : ℚ) ≠ 0 ∧
    (cropSize 100 100 1920 1080).1 ≤ ((1920 : ℤ) : ℚ) ∧
    (cropSize 100 100 1920 1080).2 ≤ ((1080 : ℤ) : ℚ) ∧
    cropRaw 1920 1080 960 540 100 100 1920 1080 =
      some (7712 / 9, 482, 9568 / 9, 598) ∧
    ((cropSize 100 100 1920 1080).1 = (cropSize 100 100 1920 1080).2 * (1920 / 1080) ∧
     (9568 / 9 : ℚ) - 7712 / 9 = (598 - 482) * (1920 / 1080)) :=
  ⟨by norm_num, by norm_num,
   by norm_num [cropSize], by norm_num [cropSize],
   by norm_num [cropRaw, cropSize],
   crop_shape_case_a 1920 1080 960 540 100 100 1920 1080 (7712 / 9) 482 (9568 / 9) 598
     (by norm_num) (by norm_num) (by norm_num [cropSize]) (by norm_num [cropSize])
     (by norm_num [cropRaw, cropSize])⟩

/-- C5: if a segment is open, `finalize()` appends exactly that segment
(samples, start frame and end frame untouched) to the scenes list as one
more closed segment and clears the open segment; if no segment is open,
`finalize()` changes nothing. -/
theorem finalize_spec (d : SceneDetector) (seg : SceneSegment) :
    (d.current_scene = some seg →
      d.finalize.scenes = d.scenes ++ [seg] ∧
      d.finalize.scenes.length = d.scenes.length + 1 ∧
      d.finalize.current_scene = none ∧
      d.finalize.max_gap_frames = d.max_gap_frames ∧
      d.finalize.min_confidence = d.min_confidence) ∧
    (d.current_scene = none → d.finalize = d) := by
  constructor
  · intro h
    simp [SceneDetector.finalize, h]
  · intro h
    simp [SceneDetector.finalize, h]

/-- C5 witness: `finalize` on a detector with an open segment holding one
sample, and on a detector with no open segment. -/
theorem finalize_spec_witness :
    (⟨3, 17 / 20, some ⟨0, 2, [(1 / 2, 1 / 2, 1 / 10, 1 / 10)]⟩, [], 0⟩ :
        SceneDetector).current_scene = some ⟨0, 2, [(1 / 2, 1 / 2, 1 / 10, 1 / 10)]⟩ ∧
    (⟨3, 17 / 20, some ⟨0, 2, [(1 / 2, 1 / 2, 1 / 10, 1 / 10)]⟩, [], 0⟩ :
        SceneDetector).finalize.scenes = [⟨0, 2, [(1 / 2, 1 / 2, 1 / 10, 1 / 10)]⟩] ∧
    (⟨3, 17 / 20, some ⟨0, 2, [(1 / 2, 1 / 2, 1 / 10, 1 / 10)]⟩, [], 0⟩ :
        SceneDetector).finalize.current_scene = none ∧
    (⟨3, 17 / 20, none, [], 0⟩ : SceneDetector).finalize = ⟨3, 17 / 20, none, [], 0⟩ :=
  ⟨rfl,
   ((finalize_spec ⟨3, 17 / 20, some ⟨0, 2, [(1 / 2, 1 / 2, 1 / 10, 1 / 10)]⟩, [], 0⟩
      ⟨0, 2, [(1 / 2, 1 / 2, 1 / 10, 1 / 10)]⟩).1 rfl).1,
   ((finalize_spec ⟨3, 17 / 20, some ⟨0, 2, [(1 / 2, 1 / 2, 1 / 10, 1 / 10)]⟩, [], 0⟩
      ⟨0, 2, [(1 / 2, 1 / 2, 1 / 10, 1 / 10)]⟩).1 rfl).2.2.1,
   (finalize_spec ⟨3, 17 / 20, none, [], 0⟩ ⟨0, 0, []⟩).2 rfl⟩

/-- C6 counterexample: the claim's own example.  The two samples do have
absolute corners (100,100)-(200,200) and (150,150)-(300,300) in a 1000x1000
frame, but the code expands the 200-wide union by 8% on each side, returning
width 232 and height 232 (center (200,200)), not the claimed 216. -/
theorem scene_bbox_example :
    [(3 / 20, 3 / 20, 1 / 10, 1 / 10), (9 / 40, 9 / 40, 3 / 20, 3 / 20)].map
        (absCorner 1000 1000) =
      [((100 : ℚ), (100 : ℚ), (200 : ℚ), (200 : ℚ)), (150, 150, 300, 300)] ∧
    calculate_scene_bbox
        [(3 / 20, 3 / 20, 1 / 10, 1 / 10), (9 / 40, 9 / 40, 3 / 20, 3 / 20)] 1000 1000 =
      some (200, 200, 232, 232) ∧
    some ((200 : ℤ), (200 : ℤ), (232 : ℤ), (232 : ℤ)) ≠ some (200, 200, 216, 216) := by
  refine ⟨?_, ?_, ?_⟩
  · norm_num [absCorner]
  · norm_num [calculate_scene_bbox, absCorner, cornerUnion, truncQ, min_def, max_def]
  · decide

/-- C6 (amended): the aggregator converts every sample to absolute corners,
takes the union rectangle, moves each union edge outward by 8% of that
axis's union extent (so each extent grows by a factor 29/25, i.e. 16%, not
8%), and returns the integer-truncated center of the expanded union (equal
to the center of the unexpanded union) and the integer-truncated expanded
extents; on the example this yields width 232, height 232, center
(200,200). -/
theorem scene_bbox_center_extent (s : ℚ × ℚ × ℚ × ℚ) (ss : List (ℚ × ℚ × ℚ × ℚ))
    (fw fh : ℚ) :
    calculate_scene_bbox (s :: ss) fw fh =
      some (truncQ (((cornerUnion (absCorner fw fh s) (ss.map (absCorner fw fh))).1 +
              (cornerUnion (absCorner fw fh s) (ss.map (absCorner fw fh))).2.2.1) / 2),
            truncQ (((cornerUnion (absCorner fw fh s) (ss.map (absCorner fw fh))).2.1 +
              (cornerUnion (absCorner fw fh s) (ss.map (absCorner fw fh))).2.2.2) / 2),
            truncQ (((cornerUnion (absCorner fw fh s) (ss.map (absCorner fw fh))).2.2.1 -
              (cornerUnion (absCorner fw fh s) (ss.map (absCorner fw fh))).1) * (29 / 25)),
            truncQ (((cornerUnion (absCorner fw fh s) (ss.map (absCorner fw fh))).2.2.2 -
              (cornerUnion (absCorner fw fh s) (ss.map (absCorner fw fh))).2.1) * (29 / 25))) := by
  simp only [calculate_scene_bbox, List.map_cons]
  refine congrArg some ?_
  refine Prod.ext ?_ (Prod.ext ?_ (Prod.ext ?_ ?_))
  all_goals exact congrArg truncQ (by ring)

/-- Helper: processing an absent frame is `absentStep`, whatever the frame
number. -/
theorem process_frame_none (d : SceneDetector) (f : ℤ) :
    d.process_frame f none = d.absentStep := rfl

/-- Helper: while a segment is open, a run of absent frames that keeps the
gap counter at or below the tolerance only increments the gap counter; the
open segment and the closed-scenes list are untouched. -/
theorem absent_run_within (fns : List ℤ) : ∀ (d : SceneDetector) (seg : SceneSegment),
    d.current_scene = some seg → d.gap_count + fns.length ≤ d.max_gap_frames →
    runFrames d (fns.map fun f => (f, none)) =
      { d with gap_count := d.gap_count + fns.length } := by
  induction fns with
  | nil =>
    intro d seg h hle
    simp [runFrames]
  | cons f fs ih =>
    intro d seg h hle
    have hstep : d.process_frame f none = { d with gap_count := d.gap_count + 1 } := by
      rw [process_frame_none]
      simp only [SceneDetector.absentStep, h]
      rw [if_neg (by simp at hle; omega)]
    simp only [List.map_cons, runFrames, List.foldl_cons]
    rw [← runFrames, hstep]
    rw [ih { d with gap_count := d.gap_count + 1 } seg h (by simp at hle ⊢; omega)]
    simp [Nat.add_assoc, Nat.add_comm 1 fs.length]

/-- Helper: from an open segment with gap counter zero, one more absent
frame after a maximal tolerated run closes the segment. -/
theorem absent_run_closes (fns : List ℤ) (f : ℤ) (d : SceneDetector) (seg : SceneSegment)
    (hopen : d.current_scene = some seg) (hgap : d.gap_count = 0)
    (hlen : fns.length = d.max_gap_frames) :
    runFrames d ((fns.map fun x => (x, none)) ++ [(f, none)]) =
      { d with scenes := d.scenes ++ [seg], current_scene := none, gap_count := 0 } := by
  have h1 := absent_run_within fns d seg hopen (by omega)
  simp only [runFrames, List.foldl_append] at h1 ⊢
  rw [h1]
  simp only [List.foldl_cons, List.foldl_nil]
  rw [process_frame_none]
  simp only [SceneDetector.absentStep, hopen]
  rw [if_pos (by simp; omega)]

/-- C4: while a segment is open and the gap counter is reset (as it is right
after any present frame), a run of exactly `max_gap_frames` absent frames
only raises the gap counter and does not close the segment, while one more
absent frame closes the segment exactly as it was; concretely, with the
default tolerance 3, present detections on frames 0,1,2 followed by absence
on frames 3,4,5,6 close exactly one segment covering frames 0-2 with all
three samples, and a present frame at index 7 then opens a new, separate
segment. -/
theorem scene_gap_boundary (d : SceneDetector) (seg : SceneSegment) (fns : List ℤ)
    (f : ℤ) (hopen : d.current_scene = some seg) (hgap : d.gap_count = 0) :
    (fns.length = d.max_gap_frames →
      runFrames d (fns.map fun x => (x, none)) =
        { d with gap_count := d.max_gap_frames }) ∧
    (fns.length = d.max_gap_frames →
      runFrames d ((fns.map fun x => (x, none)) ++ [(f, none)]) =
        { d with scenes := d.scenes ++ [seg], current_scene := none,
                 gap_count := 0 }) ∧
    runFrames (SceneDetector.init 3 (17 / 20))
        [(0, some (1 / 2, 1 / 2, 1 / 10, 1 / 10, 9 / 10)),
         (1, some (1 / 2, 1 / 2, 1 / 10, 1 / 10, 9 / 10)),
         (2, some (1 / 2, 1 / 2, 1 / 10, 1 / 10, 9 / 10)),
         (3, none), (4, none), (5, none), (6, none)] =
      ⟨3, 17 / 20, none,
       [⟨0, 2, [(1 / 2, 1 / 2, 1 / 10, 1 / 10), (1 / 2, 1 / 2, 1 / 10, 1 / 10),
                (1 / 2, 1 / 2, 1 / 10, 1 / 10)]⟩], 0⟩ ∧
    runFrames (SceneDetector.init 3 (17 / 20))
        [(0, some (1 / 2, 1 / 2, 1 / 10, 1 / 10, 9 / 10)),
         (1, some (1 / 2, 1 / 2, 1 / 10, 1 / 10, 9 / 10)),
         (2, some (1 / 2, 1 / 2, 1 / 10, 1 / 10, 9 / 10)),
         (3, none), (4, none), (5, none), (6, none),
         (7, some (1 / 2, 1 / 2, 1 / 10, 1 / 10, 9 / 10))] =
      ⟨3, 17 / 20, some ⟨7, 7, [(1 / 2, 1 / 2, 1 / 10, 1 / 10)]⟩,
       [⟨0, 2, [(1 / 2, 1 / 2, 1 / 10, 1 / 10), (1 / 2, 1 / 2, 1 / 10, 1 / 10),
                (1 / 2, 1 / 2, 1 / 10, 1 / 10)]⟩], 0⟩ := by
  refine ⟨?_, ?_, ?_, ?_⟩
  · intro hlen
    rw [absent_run_within fns d seg hopen (by omega)]
    simp [hgap, hlen]
  · intro hlen
    exact absent_run_closes fns f d seg hopen hgap hlen
  · norm_num [runFrames, SceneDetector.init, SceneDetector.process_frame,
      SceneDetector.absentStep]
  · norm_num [runFrames, SceneDetector.init, SceneDetector.process_frame,
      SceneDetector.absentStep]

/-- C4 witness: the gap-boundary theorem instantiated at a detector with an
open one-sample segment, gap counter 0 and tolerance 3, driven by the absent
frames 1,2,3 (segment stays open) and then also frame 4 (segment closes). -/
theorem scene_gap_boundary_witness :
    (⟨3, 17 / 20, some ⟨0, 0, [(1 / 2, 1 / 2, 1 / 10, 1 / 10)]⟩, [], 0⟩ :
        SceneDetector).current_scene = some ⟨0, 0, [(1 / 2, 1 / 2, 1 / 10, 1 / 10)]⟩ ∧
    (⟨3, 17 / 20, some ⟨0, 0, [(1 / 2, 1 / 2, 1 / 10, 1 / 10)]⟩, [], 0⟩ :
        SceneDetector).gap_count = 0 ∧
    runFrames ⟨3, 17 / 20, some ⟨0, 0, [(1 / 2, 1 / 2, 1 / 10, 1 / 10)]⟩, [], 0⟩
        ([(1 : ℤ), 2, 3].map fun x => (x, none)) =
      ⟨3, 17 / 20, some ⟨0, 0, [(1 / 2, 1 / 2, 1 / 10, 1 / 10)]⟩, [], 3⟩ ∧
    runFrames ⟨3, 17 / 20, some ⟨0, 0, [(1 / 2, 1 / 2, 1 / 10, 1 / 10)]⟩, [], 0⟩
        (([(1 : ℤ), 2, 3].map fun x => (x, none)) ++ [((4 : ℤ), none)]) =
      ⟨3, 17 / 20, none, [⟨0, 0, [(1 / 2, 1 / 2, 1 / 10, 1 / 10)]⟩], 0⟩ :=
  ⟨rfl, rfl,
   (scene_gap_boundary ⟨3, 17 / 20, some ⟨0, 0, [(1 / 2, 1 / 2, 1 / 10, 1 / 10)]⟩, [], 0⟩
     ⟨0, 0, [(1 / 2, 1 / 2, 1 / 10, 1 / 10)]⟩ [1, 2, 3] 4 rfl rfl).1 rfl,
   (scene_gap_boundary ⟨3, 17 / 20, some ⟨0, 0, [(1 / 2, 1 / 2, 1 / 10, 1 / 10)]⟩, [], 0⟩
     ⟨0, 0, [(1 / 2, 1 / 2, 1 / 10, 1 / 10)]⟩ [1, 2, 3] 4 rfl rfl).2.1 rfl⟩

/-- Helper: one `absentStep` preserves the gap invariant and the gap
tolerance. -/
theorem absentStep_inv (d : SceneDetector)
    (h1 : d.gap_count ≤ d.max_gap_frames)
    (h2 : d.current_scene = none → d.gap_count = 0) :
    d.absentStep.max_gap_frames = d.max_gap_frames ∧
    d.absentStep.gap_count ≤ d.absentStep.max_gap_frames ∧
    (d.absentStep.current_scene = none → d.absentStep.gap_count = 0) := by
  simp only [SceneDetector.absentStep]
  cases hcs : d.current_scene with
  | none => exact ⟨rfl, h1, fun _ => h2 hcs⟩
  | some cs =>
    by_cases hgt : d.gap_count + 1 > d.max_gap_frames
    · simp [hgt]
    · simp [hgt]
      omega

/-- Helper: one `process_frame` call preserves the gap invariant and the gap
tolerance. -/
theorem process_frame_inv (d : SceneDetector) (f : ℤ) (b : Option BBox5)
    (h1 : d.gap_count ≤ d.max_gap_frames)
    (h2 : d.current_scene = none → d.gap_count = 0) :
    (d.process_frame f b).max_gap_frames = d.max_gap_frames ∧
    (d.process_frame f b).gap_count ≤ (d.process_frame f b).max_gap_frames ∧
    ((d.process_frame f b).current_scene = none →
      (d.process_frame f b).gap_count = 0) := by
  cases b with
  | none => exact absentStep_inv d h1 h2
  | some bb =>
    obtain ⟨x, y, w, h, conf⟩ := bb
    simp only [SceneDetector.process_frame]
    split
    · cases hcs : d.current_scene with
      | none => exact ⟨rfl, Nat.zero_le _, fun _ => rfl⟩
      | some cs => exact ⟨rfl, Nat.zero_le _, fun _ => rfl⟩
    · exact absentStep_inv d h1 h2

/-- Helper: the gap invariant holds after any input sequence from any state
satisfying it. -/
theorem runFrames_inv (inputs : List (ℤ × Option BBox5)) : ∀ d : SceneDetector,
    d.gap_count ≤ d.max_gap_frames → (d.current_scene = none → d.gap_count = 0) →
    (runFrames d inputs).max_gap_frames = d.max_gap_frames ∧
    (runFrames d inputs).gap_count ≤ (runFrames d inputs).max_gap_frames ∧
    ((runFrames d inputs).current_scene = none →
      (runFrames d inputs).gap_count = 0) := by
  induction inputs with
  | nil => exact fun d ha hb => ⟨rfl, ha, hb⟩
  | cons p ps ih =>
    intro d h1 h2
    have hp := process_frame_inv d p.1 p.2 h1 h2
    have hps := ih (d.process_frame p.1 p.2) (hp.1 ▸ hp.2.1) hp.2.2
    simp only [runFrames, List.foldl_cons] at hps ⊢
    exact ⟨hps.1.trans hp.1, hps.2.1, hps.2.2⟩

/-- C10: in every state reachable from a fresh `SceneDetector` by any
sequence of `process_frame` calls, the gap counter stays between 0 and
`max_gap_frames`, and it is 0 whenever no segment is open. -/
theorem scene_gap_invariant (g : ℕ) (conf : ℚ) (inputs : List (ℤ × Option BBox5)) :
    0 ≤ (runFrames (SceneDetector.init g conf) inputs).gap_count ∧
    (runFrames (SceneDetector.init g conf) inputs).gap_count ≤ g ∧
    ((runFrames (SceneDetector.init g conf) inputs).current_scene = none →
      (runFrames (SceneDetector.init g conf) inputs).gap_count = 0) := by
  have h := runFrames_inv inputs (SceneDetector.init g conf) (Nat.zero_le _)
    (fun _ => rfl)
  exact ⟨Nat.zero_le _, le_trans h.2.1 (le_of_eq h.1), h.2.2⟩

/-- C10 witness: the invariant theorem instantiated with the default
tolerance 3 and a two-frame input sequence (one present, one absent
detection). -/
theorem scene_gap_invariant_witness :
    0 ≤ (runFrames (SceneDetector.init 3 (17 / 20))
          [(0, some (1 / 2, 1 / 2, 1 / 10, 1 / 10, 9 / 10)), (1, none)]).gap_count ∧
    (runFrames (SceneDetector.init 3 (17 / 20))
        [(0, some (1 / 2, 1 / 2, 1 / 10, 1 / 10, 9 / 10)), (1, none)]).gap_count ≤ 3 ∧
    ((runFrames (SceneDetector.init 3 (17 / 20))
        [(0, some (1 / 2, 1 / 2, 1 / 10, 1 / 10, 9 / 10)), (1, none)]).current_scene =
        none →
      (runFrames (SceneDetector.init 3 (17 / 20))
        [(0, some (1 / 2, 1 / 2, 1 / 10, 1 / 10, 9 / 10)), (1, none)]).gap_count = 0) :=
  scene_gap_invariant 3 (17 / 20)
    [(0, some (1 / 2, 1 / 2, 1 / 10, 1 / 10, 9 / 10)), (1, none)]

/-- Helper: every candidate kept by the suppression loop comes from its
input list. -/
theorem nmsLoop_subset (thres : ℚ) (l : List Det) :
    ∀ x ∈ nmsLoop thres l, x ∈ l := by
  induction l using nmsLoop.induct thres with
  | case1 => simp [nmsLoop]
  | case2 d rest ih =>
    intro x hx
    rw [nmsLoop] at hx
    rcases List.mem_cons.mp hx with h | h
    · exact h ▸ List.mem_cons_self _ _
    · exact List.mem_cons_of_mem _ (List.mem_of_mem_filter (ih x h))

/-- Helper: the source's IoU is symmetric in its two boxes. -/
theorem calculate_iou_comm (b1 b2 : Box4) :
    calculate_iou b1 b2 = calculate_iou b2 b1 := by
  simp only [calculate_iou]
  rw [max_comm b1.1 b2.1, max_comm b1.2.1 b2.2.1, min_comm b1.2.2.1 b2.2.2.1,
      min_comm b1.2.2.2 b2.2.2.2]
  ring_nf

/-- C8: any two distinct candidates retained by the suppression loop of
`extract_detections` have IoU (in either argument order) at most the IoU
threshold. -/
theorem nms_retained_pairs (thres : ℚ) (l : List Det) :
    (nmsLoop thres l).Pairwise
      (fun a b => calculate_iou a.1 b.1 ≤ thres ∧ calculate_iou b.1 a.1 ≤ thres) := by
  induction l using nmsLoop.induct thres with
  | case1 => simp [nmsLoop]
  | case2 d rest ih =>
    rw [nmsLoop]
    refine List.Pairwise.cons ?_ ih
    intro b hb
    have hbf := nmsLoop_subset thres _ b hb
    have hp := List.of_mem_filter hbf
    simp only [decide_eq_true_eq] at hp
    refine ⟨hp, ?_⟩
    rw [calculate_iou_comm]
    exact hp

/-- C7: the greedy suppression loop of `extract_detections` is idempotent:
applied a second time to its own output with the same IoU threshold it
returns exactly the same list of (box, score, class) candidates. -/
theorem nms_idempotent (thres : ℚ) (l : List Det) :
    nmsLoop thres (nmsLoop thres l) = nmsLoop thres l := by
  induction l using nmsLoop.induct thres with
  | case1 => simp [nmsLoop]
  | case2 d rest ih =>
    have hout : nmsLoop thres (d :: rest) =
        d :: nmsLoop thres (rest.filter fun e => calculate_iou d.1 e.1 ≤ thres) := by
      rw [nmsLoop]
    rw [hout, nmsLoop]
    congr 1
    have hfil : (nmsLoop thres (rest.filter fun e => calculate_iou d.1 e.1 ≤ thres)).filter
        (fun e => calculate_iou d.1 e.1 ≤ thres) =
        nmsLoop thres (rest.filter fun e => calculate_iou d.1 e.1 ≤ thres) := by
      apply List.filter_eq_self.mpr
      intro b hb
      have hbf := nmsLoop_subset thres _ b hb
      simpa using (List.mem_filter.mp hbf).2
    rw [hfil]
    exact ih

/-- Helper: the source's sigmoid written with the doubling factor on the
left of the clipped input. -/
theorem sigmoid_eq (x : ℝ) :
    sigmoid x = 1 / (1 + Real.exp (-(2 * max (-88) (min 88 x)))) := by
  rw [sigmoid, mul_comm]

/-- C9 counterexample: at raw value 192 (dequantized to 1/2), grid cell 0
and stride 8, the decoded x-center differs from the value the claim's
formula gives with the standard logistic `1 / (1 + exp(-x))`, because the
source's sigmoid doubles its (clipped) input first. -/
theorem decode_sigmoid_not_standard :
    (decodeCell 192 128 128 128 128 128 128 0 0 8 10 13).1 ≠
      (specDecodeCellStd 192 128 128 128 128 128 128 0 0 8 10 13).1 := by
  intro h
  simp only [decodeCell, specDecodeCellStd, sigmoid, stdLogistic, dequant] at h
  have hclip : max (-88 : ℝ) (min 88 ((192 - 128) / 128)) = 1 / 2 := by
    norm_num
  rw [hclip] at h
  norm_num at h
  have ha : (0 : ℝ) < 1 + Real.exp (-1) := by positivity
  have hb : (0 : ℝ) < 1 + Real.exp (-(1 / 2)) := by positivity
  have hlt : Real.exp (-1) < Real.exp (-(1 / 2)) := Real.exp_lt_exp.mpr (by norm_num)
  field_simp at h
  nlinarith [ha, hb, hlt]

/-- C9 (amended): per grid cell and anchor the decoder computes
`center = (sigmoid(raw_xy)*2 - 0.5 + grid_cell) * stride`,
`size = (sigmoid(raw_wh)*2)^2 * anchor`, `objectness = sigmoid(raw_obj)`,
`class_prob = sigmoid(raw_cls)` and per-class
`score = objectness * class_prob`, then divides center and size by the model
input dimension 640 — where each raw tensor value is first dequantized as
`(v - 128) / 128` and the sigmoid is not the standard logistic but
`1 / (1 + exp(-2 * clip(x, -88, 88)))`. -/
theorem decode_formulas (tx ty tw th tobj c0 c1 gx gy stride ax ay : ℝ) :
    decodeCell tx ty tw th tobj c0 c1 gx gy stride ax ay =
      specDecodeCellScaled tx ty tw th tobj c0 c1 gx gy stride ax ay := by
  simp only [decodeCell, specDecodeCellScaled, sigmoid_eq, dequant]
  norm_num
